import Mathlib

/-!
# Verification of the `httpie` CLI tool (singee-study/httpie, src/main.rs)

A shallow embedding of the program's parsing, dispatch and rendering logic.
Strings are modelled as Lean `String`s; the character-level operations of the
Rust standard library (`str::split` with a one-character separator) are
embedded as functions on `List Char` applied to `String.data`.

Third-party library behaviour that the program calls into (the `url` crate's
URL grammar, `jsonxf::pretty_print`, terminal colorization from the `colored`
crate) is abstracted as explicit function parameters, so that every theorem
quantifies over the library behaviour rather than fixing one model of it.
The `mime` crate's parser and the `http` crate's header-value handling are
modelled concretely below, since the claims depend on their exact behaviour
(parameter-sensitive `Mime` equality, `HeaderValue::to_str` visibility check,
`HeaderValue`'s `Debug` rendering).
-/

/-- The error kinds surfaced through `anyhow::Result` in `main.rs`:
a URL that the `url` crate rejects, and a `key=value` token that
`KvPair::from_str` rejects. -/
inductive ParseError
  | invalidUrl
  | invalidKeyValue
deriving DecidableEq, Repr

deriving instance DecidableEq for Except

/-- `struct KvPair { k: String, v: String }` from `main.rs`. -/
structure KvPair where
  k : String
  v : String
deriving DecidableEq, Repr

/-- Rust's `str::split(sep)` for a one-character separator, on the character
list of the string: `"".split` yields `[""]`, `"a=b=c".split("=")` yields
`["a", "b", "c"]`, and a trailing separator yields a trailing empty part. -/
def split_on_char (sep : Char) : List Char → List (List Char)
  | [] => [[]]
  | c :: rest =>
    if c = sep then [] :: split_on_char sep rest
    else
      match split_on_char sep rest with
      | [] => [[c]]
      | h :: t => (c :: h) :: t

/-- `impl FromStr for KvPair` (main.rs lines 65-76): split on `"="`, take the
first two items of the split iterator (ignoring any further items), fail if
either `next()` returns `None`. -/
def kvPair_from_str (s : String) : Except ParseError KvPair :=
  match split_on_char '=' s.data with
  | k :: v :: _ => .ok ⟨String.mk k, String.mk v⟩
  | _ => .error .invalidKeyValue

/-- `fn parse_kv_pair(s: &str) -> Result<KvPair>` (main.rs lines 78-80). -/
def parse_kv_pair (s : String) : Except ParseError KvPair :=
  kvPair_from_str s

/-- `fn parse_url(s: &str) -> Result<String>` (main.rs lines 53-57): validate
against the `url` crate's grammar (abstracted as `urlValid`) and return the
input string itself unchanged on success. -/
def parse_url (urlValid : String → Bool) (s : String) : Except ParseError String :=
  if urlValid s then .ok s else .error .invalidUrl

section SplitLemmas

variable {sep : Char}

theorem split_on_char_ne_nil (sep : Char) (l : List Char) :
    split_on_char sep l ≠ [] := by
  cases l with
  | nil => simp [split_on_char]
  | cons c rest =>
    simp only [split_on_char]
    split
    · simp
    · split <;> simp

theorem split_on_char_head (sep : Char) (l : List Char) :
    ∃ t, split_on_char sep l = (l.takeWhile (fun c => c != sep)) :: t := by
  induction l with
  | nil => exact ⟨[], rfl⟩
  | cons c rest ih =>
    by_cases hc : c = sep
    · subst hc
      refine ⟨split_on_char c rest, ?_⟩
      simp [split_on_char, List.takeWhile]
    · obtain ⟨t, ht⟩ := ih
      refine ⟨t, ?_⟩
      have hb : (c != sep) = true := by simp [hc]
      simp only [split_on_char, if_neg hc, ht]
      simp [List.takeWhile, hb]

theorem split_on_char_of_mem (l : List Char) (h : sep ∈ l) :
    split_on_char sep l =
      (l.takeWhile (fun c => c != sep)) ::
        split_on_char sep ((l.dropWhile (fun c => c != sep)).tail) := by
  induction l with
  | nil => cases h
  | cons c rest ih =>
    by_cases hc : c = sep
    · subst hc
      simp [split_on_char, List.takeWhile, List.dropWhile]
    · have hmem : sep ∈ rest := by
        cases h with
        | head => exact absurd rfl hc
        | tail _ h => exact h
      have hb : (c != sep) = true := by simp [hc]
      simp only [split_on_char, if_neg hc, ih hmem]
      simp [List.takeWhile, List.dropWhile, hb]

theorem split_on_char_of_not_mem (l : List Char) (h : sep ∉ l) :
    split_on_char sep l = [l] := by
  induction l with
  | nil => rfl
  | cons c rest ih =>
    have hc : c ≠ sep := fun hc => h (hc ▸ List.mem_cons_self c rest)
    have hmem : sep ∉ rest := fun hm => h (List.mem_cons_of_mem c hm)
    simp only [split_on_char, if_neg hc, ih hmem]

end SplitLemmas

/-! ## Model of the `mime` crate (as used by `get_content_type` / `print_body`) -/

/-- `tchar` of the MIME grammar, as accepted by the `mime` crate's parser:
alphanumerics and the RFC 7230 token symbols (the single quote, code 39, and
the backquote, code 96, are written by code point). -/
def is_mime_token_char (c : Char) : Bool :=
  c.isAlphanum ||
  c ∈ ['!', '#', '$', '%', '&', '*', '+', '-', '.', '^', '_', '|', '~'] ||
  c.toNat == 39 || c.toNat == 96

/-- Strip leading and trailing ASCII spaces. -/
def trim_ascii (l : List Char) : List Char :=
  ((l.dropWhile (fun c => c == ' ')).reverse.dropWhile (fun c => c == ' ')).reverse

/-- A parsed media type: top-level type, subtype, and parameter list, with
type, subtype and parameter names lowercased by the parser.  Mirrors
`mime::Mime`.  Equality of `Mime` values in the `mime` crate compares type,
subtype AND the full parameter list (that is why `TEXT_PLAIN` and
`TEXT_PLAIN_UTF_8` are distinct unequal constants), which the derived
structural equality reproduces. -/
structure Mime where
  type_ : String
  subtype : String
  params : List (String × String)
deriving DecidableEq, Repr

/-- `mime::APPLICATION_JSON`: `application/json` with no parameters. -/
def APPLICATION_JSON : Mime := ⟨"application", "json", []⟩

/-- One `;`-separated parameter segment: optional surrounding spaces, then
`name=value` with a nonempty token on each side. -/
def parse_mime_param (seg : List Char) : Option (String × String) :=
  match split_on_char '=' (trim_ascii seg) with
  | [n, v] =>
    if n.isEmpty || v.isEmpty then none
    else if n.all is_mime_token_char && v.all is_mime_token_char then
      some (String.mk (n.map Char.toLower), String.mk v)
    else none
  | _ => none

/-- Model of `str::parse::<Mime>()`: `type "/" subtype *(";" param)`, failing
on an empty or non-token type or subtype or a malformed parameter. -/
def mime_from_str (s : String) : Option Mime :=
  match split_on_char ';' s.data with
  | [] => none
  | essence :: rest =>
    match split_on_char '/' (trim_ascii essence) with
    | [t, sub] =>
      if t.isEmpty || sub.isEmpty then none
      else if t.all is_mime_token_char && sub.all is_mime_token_char then
        match rest.mapM parse_mime_param with
        | some ps => some ⟨String.mk (t.map Char.toLower), String.mk (sub.map Char.toLower), ps⟩
        | none => none
      else none
    | _ => none

/-! ## Model of the `http` crate's header values -/

/-- `is_visible_ascii` from the `http` crate: bytes 32..126 and horizontal
tab.  Used both by `HeaderValue::to_str` and by its `Debug` rendering. -/
def is_visible_ascii (c : Char) : Bool :=
  (32 ≤ c.toNat && c.toNat < 127) || c = '\t'

/-- `HeaderValue::to_str`: succeeds with the text itself exactly when every
byte is visible ASCII; otherwise errors (which `get_content_type` unwraps). -/
def header_value_to_str (v : String) : Option String :=
  if v.data.all is_visible_ascii then some v else none

/-- Lower-case hex digit, as produced by Rust's `{:x}` formatting. -/
def hex_digit (n : Nat) : Char :=
  if n < 10 then Char.ofNat (48 + n) else Char.ofNat (87 + n)

/-- `{:x}` on a byte: no zero padding, one or two lower-case hex digits. -/
def byte_hex (n : Nat) : String :=
  if n < 16 then String.mk [hex_digit n]
  else String.mk [hex_digit (n / 16 % 16), hex_digit (n % 16)]

/-- The byte loop of `HeaderValue`'s `Debug` impl: a double quote becomes
backslash-quote, other visible ASCII is kept as-is, anything else becomes a
backslash-x hex escape. -/
def debug_escape_chars : List Char → List Char
  | [] => []
  | c :: rest =>
    (if c = '"' then ['\\', '"']
     else if is_visible_ascii c then [c]
     else '\\' :: 'x' :: (byte_hex c.toNat).data) ++ debug_escape_chars rest

/-- `format!("{:?}", value)` for a (non-sensitive) `HeaderValue`: the escaped
bytes surrounded by double quotes. -/
def header_value_debug (v : String) : String :=
  String.mk ('"' :: debug_escape_chars v.data ++ ['"'])

/-! ## Response model and renderer -/

/-- The parts of `reqwest::Response` that the renderer reads: the `Debug`
form of the HTTP version (e.g. `HTTP/1.1`), the numeric status code, the
header list in the order exposed by the header map (names in their canonical
lower-case form), and the body text. -/
structure Response where
  version : String
  status : Nat
  headers : List (String × String)
  body : String
deriving DecidableEq, Repr

/-- Excerpt of `StatusCode::canonical_reason` sufficient for the codes used
here; unknown codes render as `Display` does for them. -/
def canonical_reason (code : Nat) : String :=
  if code = 200 then "OK"
  else if code = 404 then "Not Found"
  else if code = 500 then "Internal Server Error"
  else "<unknown status code>"

/-- `Display` of `StatusCode`: the numeric code followed by the reason. -/
def status_display (code : Nat) : String :=
  toString code ++ " " ++ canonical_reason code

/-- A `panic!` abort of the process (from `Option::unwrap`/`Result::unwrap`
on `None`/`Err`). -/
inductive Panic
  | unwrapFailure
deriving DecidableEq, Repr

/-- ASCII lowercasing of a whole string, character by character. -/
def ascii_lowercase (s : String) : String :=
  String.mk (s.data.map Char.toLower)

/-- `HeaderMap::get(name)`: first value stored under the (case-insensitive)
header name. -/
def headers_get (headers : List (String × String)) (name : String) : Option String :=
  (headers.find? (fun p => ascii_lowercase p.1 == name)).map Prod.snd

/-- `fn get_content_type(resp: &Response) -> Option<Mime>` (main.rs lines
144-146): look up the content-type header and, when present,
`v.to_str().unwrap().parse().unwrap()` — both unwraps panic on failure, so
the result is `Except Panic` rather than a plain `Option`. -/
def get_content_type (resp : Response) : Except Panic (Option Mime) :=
  match headers_get resp.headers "content-type" with
  | none => .ok none
  | some v =>
    match header_value_to_str v with
    | none => .error .unwrapFailure
    | some sv =>
      match mime_from_str sv with
      | none => .error .unwrapFailure
      | some m => .ok (some m)

/-- `fn print_response_line(resp: &Response)` (main.rs lines 109-111):
one blue line `"{:?} {}"` of version and status. -/
def print_response_line (blue : String → String) (resp : Response) : List String :=
  [blue (resp.version ++ " " ++ status_display resp.status)]

/-- `fn print_response_headers(resp: &Response)` (main.rs lines 113-119):
one line per header, in order, `"{}: {:?}"` of the green-colored name and the
`Debug` form of the value. -/
def print_response_headers (green : String → String) (resp : Response) : List String :=
  resp.headers.map (fun p => green p.1 ++ ": " ++ header_value_debug p.2)

/-- `fn print_body(m: Option<Mime>, body: &str)` (main.rs lines 121-131):
when the mime equals `APPLICATION_JSON` and `jsonxf::pretty_print`
(abstracted as `prettyPrint`) succeeds, print the pretty text in cyan and
return; in every other case print the raw body.  The returned list holds the
lines written to standard output; the function cannot fail. -/
def print_body (prettyPrint : String → Except String String) (cyan : String → String)
    (m : Option Mime) (body : String) : List String :=
  match m with
  | some v =>
    if v = APPLICATION_JSON then
      match prettyPrint body with
      | .ok j => [cyan j]
      | .error _ => [body]
    else [body]
  | none => [body]

/-- `async fn print_response(resp: Response)` (main.rs lines 133-142): status
line, headers, then content-type lookup (which may panic) and the body. -/
def print_response (prettyPrint : String → Except String String)
    (blue green cyan : String → String) (resp : Response) :
    Except Panic (List String) :=
  let line := print_response_line blue resp
  let hdrs := print_response_headers green resp
  match get_content_type resp with
  | .error p => .error p
  | .ok ct => .ok (line ++ hdrs ++ print_body prettyPrint cyan ct resp.body)

/-! ## Request dispatch -/

/-- A request handed to the HTTP client: the observable network effect. -/
inductive NetRequest
  | get (url : String)
  | post (url : String) (body : List (String × String))
deriving DecidableEq, Repr

/-- `HashMap::insert`: replace the value when the key is present, otherwise
add a new entry (the association list refines the unordered map). -/
def map_insert (m : List (String × String)) (k v : String) : List (String × String) :=
  if m.any (fun p => p.1 == k) then m.map (fun p => if p.1 == k then (p.1, v) else p)
  else m ++ [(k, v)]

/-- The body-building loop of `fn post` (main.rs lines 92-100): insert each
pair of `args.body` in order into an initially empty map. -/
def build_body (pairs : List KvPair) : List (String × String) :=
  pairs.foldl (fun m p => map_insert m p.k p.v) []

/-- Map lookup on the association-list refinement of the `HashMap`. -/
def assoc_get (m : List (String × String)) (k : String) : Option String :=
  (m.find? (fun p => p.1 == k)).map Prod.snd

/-- Modelled from the spec: "last write wins" — the value of the LAST
occurrence of key `k` in the ordered pair sequence, to be compared with what
`build_body` produces. -/
def find_last (k : String) : List KvPair → Option String
  | [] => none
  | p :: rest =>
    match find_last k rest with
    | some v => some v
    | none => if p.k == k then some p.v else none

/-- Outcome of one program invocation, with the requests that were issued. -/
inductive RunOutcome
  | parseError (e : ParseError)
  | networkError (msg : String)
  | panicked (p : Panic)
  | ok (output : List String)
deriving DecidableEq, Repr

/-- Process exit codes: 2 for a clap argument-parse failure, 1 for an
`anyhow` error returned from `main`, 101 for a panic, 0 for success. -/
def exit_code : RunOutcome → Nat
  | .parseError _ => 2
  | .networkError _ => 1
  | .panicked _ => 101
  | .ok _ => 0

namespace Httpie

/-- `async fn get(client: Client, args: &Get)` (main.rs lines 83-89): send a
GET (the transport abstracts `client.get(url).send()`; an `Err` is a
transport-level failure, an `Ok` is any HTTP response whatever its status),
then render the response. -/
def get (transport : NetRequest → Except String Response)
    (prettyPrint : String → Except String String)
    (blue green cyan : String → String) (url : String) :
    List NetRequest × RunOutcome :=
  let req := NetRequest.get url
  match transport req with
  | .error msg => ([req], .networkError msg)
  | .ok resp =>
    match print_response prettyPrint blue green cyan resp with
    | .error p => ([req], .panicked p)
    | .ok out => ([req], .ok out)

/-- `async fn post(client: Client, args: &Post)` (main.rs lines 91-107):
build the body map from the pairs, send a POST with it as the JSON object,
then render the response. -/
def post (transport : NetRequest → Except String Response)
    (prettyPrint : String → Except String String)
    (blue green cyan : String → String) (url : String) (body : List KvPair) :
    List NetRequest × RunOutcome :=
  let req := NetRequest.post url (build_body body)
  match transport req with
  | .error msg => ([req], .networkError msg)
  | .ok resp =>
    match print_response prettyPrint blue green cyan resp with
    | .error p => ([req], .panicked p)
    | .ok out => ([req], .ok out)

/-- The raw command line: subcommand plus unparsed string arguments. -/
inductive Cli
  | get (url : String)
  | post (url : String) (body : List String)
deriving DecidableEq, Repr

/-- `fn main` together with clap's derived argument parsing: clap runs
`parse_url` on the url argument and `parse_kv_pair` on every body token
BEFORE any subcommand code runs, exiting on the first failure; only then is
the subcommand dispatched to `get` or `post`. -/
def main_run (urlValid : String → Bool)
    (transport : NetRequest → Except String Response)
    (prettyPrint : String → Except String String)
    (blue green cyan : String → String) :
    Cli → List NetRequest × RunOutcome
  | .get url =>
    match parse_url urlValid url with
    | .error e => ([], .parseError e)
    | .ok u => Httpie.get transport prettyPrint blue green cyan u
  | .post url body =>
    match parse_url urlValid url with
    | .error e => ([], .parseError e)
    | .ok u =>
      match body.mapM parse_kv_pair with
      | .error e => ([], .parseError e)
      | .ok pairs => Httpie.post transport prettyPrint blue green cyan u pairs

/-! ## Properties of the body-building map -/

theorem assoc_get_map_insert_self (m : List (String × String)) (k v : String) :
    assoc_get (map_insert m k v) k = some v := by
  unfold assoc_get map_insert
  by_cases h : m.any (fun p => p.1 == k)
  · rw [if_pos h, List.find?_map]
    have hpred :
        ((fun p : String × String => p.1 == k) ∘
            (fun p : String × String => if p.1 == k then (p.1, v) else p)) =
          (fun p : String × String => p.1 == k) := by
      funext p
      by_cases hp : p.1 = k <;> simp [hp]
    rw [hpred]
    have hs : (m.find? (fun p => p.1 == k)).isSome := by
      rw [List.find?_isSome]
      obtain ⟨x, hx, hpx⟩ := List.any_eq_true.mp h
      exact ⟨x, hx, hpx⟩
    obtain ⟨q, hq⟩ := Option.isSome_iff_exists.mp hs
    have hk : q.1 = k := by
      have := List.find?_some hq
      simpa using this
    rw [hq]
    simp [hk]
  · rw [Bool.not_eq_true] at h
    rw [if_neg (by simp [h]), List.find?_append]
    have hnone : m.find? (fun p => p.1 == k) = none := by
      rw [List.find?_eq_none]
      intro x hx
      exact List.any_eq_false.mp h x hx
    rw [hnone]
    simp

theorem assoc_get_map_insert_ne (m : List (String × String)) (k v k2 : String)
    (hne : k2 ≠ k) : assoc_get (map_insert m k v) k2 = assoc_get m k2 := by
  unfold assoc_get map_insert
  by_cases h : m.any (fun p => p.1 == k)
  · rw [if_pos h, List.find?_map]
    have hpred :
        ((fun p : String × String => p.1 == k2) ∘
            (fun p : String × String => if p.1 == k then (p.1, v) else p)) =
          (fun p : String × String => p.1 == k2) := by
      funext p
      by_cases hp : p.1 = k <;> simp [hp]
    rw [hpred]
    cases hq : m.find? (fun p => p.1 == k2) with
    | none => simp
    | some q =>
      have hk2 : q.1 = k2 := by
        have := List.find?_some hq
        simpa using this
      simp [hk2, hne]
  · rw [Bool.not_eq_true] at h
    rw [if_neg (by simp [h]), List.find?_append]
    cases hq : m.find? (fun p => p.1 == k2) with
    | some q => simp
    | none =>
      have : (k == k2) = false := by
        simp
        exact fun hk => hne hk.symm
      simp [this]

theorem build_body_loop (k : String) (pairs : List KvPair) :
    ∀ m : List (String × String),
      assoc_get (pairs.foldl (fun m p => map_insert m p.k p.v) m) k =
        match find_last k pairs with
        | some v => some v
        | none => assoc_get m k := by
  induction pairs with
  | nil => intro m; simp [find_last]
  | cons p rest ih =>
    intro m
    simp only [List.foldl_cons]
    rw [ih (map_insert m p.k p.v)]
    cases hfl : find_last k rest with
    | some v => simp [find_last, hfl]
    | none =>
      simp only [find_last, hfl]
      by_cases hpk : (p.k == k) = true
      · have : p.k = k := by simpa using hpk
        subst this
        simp [assoc_get_map_insert_self]
      · have hne : k ≠ p.k := by
          intro hk
          exact hpk (by simp [hk])
        simp [hpk, assoc_get_map_insert_ne m p.k p.v k hne]

theorem keys_map_replace (k v : String) (m : List (String × String)) :
    (m.map (fun p => if p.1 == k then (p.1, v) else p)).map Prod.fst =
      m.map Prod.fst := by
  induction m with
  | nil => rfl
  | cons q rest ih =>
    simp only [List.map_cons, ih]
    by_cases hq : q.1 = k <;> simp [hq]

theorem nodup_keys_map_insert (m : List (String × String)) (k v : String)
    (h : (m.map Prod.fst).Nodup) : ((map_insert m k v).map Prod.fst).Nodup := by
  unfold map_insert
  by_cases hany : m.any (fun p => p.1 == k)
  · rw [if_pos hany, keys_map_replace]
    exact h
  · rw [Bool.not_eq_true] at hany
    rw [if_neg (by simp [hany]), List.map_append, List.nodup_append]
    refine ⟨h, by simp, ?_⟩
    intro a ha hb
    simp at hb
    obtain ⟨p, hp, hpa⟩ := List.mem_map.mp ha
    have := List.any_eq_false.mp hany p hp
    simp [hpa, hb] at this

theorem build_body_nodup_loop (pairs : List KvPair) :
    ∀ m : List (String × String), (m.map Prod.fst).Nodup →
      (((pairs.foldl (fun m p => map_insert m p.k p.v) m)).map Prod.fst).Nodup := by
  induction pairs with
  | nil => intro m h; exact h
  | cons p rest ih =>
    intro m h
    simp only [List.foldl_cons]
    exact ih _ (nodup_keys_map_insert _ _ _ h)

/-! ## `parse_kv_pair` characterization helpers -/

theorem parse_kv_pair_eq_of_mem (s : String) (h : '=' ∈ s.data) :
    parse_kv_pair s =
      Except.ok
        ⟨String.mk (s.data.takeWhile (fun c => c != '=')),
         String.mk (((s.data.dropWhile (fun c => c != '=')).tail).takeWhile
           (fun c => c != '='))⟩ := by
  unfold parse_kv_pair kvPair_from_str
  rw [split_on_char_of_mem s.data h]
  obtain ⟨t, ht⟩ := split_on_char_head '=' ((s.data.dropWhile (fun c => c != '=')).tail)
  rw [ht]

theorem parse_kv_pair_eq_of_not_mem (s : String) (h : '=' ∉ s.data) :
    parse_kv_pair s = Except.error ParseError.invalidKeyValue := by
  unfold parse_kv_pair kvPair_from_str
  rw [split_on_char_of_not_mem s.data h]

theorem debug_escape_chars_id (l : List Char)
    (h : (l.all fun c => is_visible_ascii c && c != '"') = true) :
    debug_escape_chars l = l := by
  induction l with
  | nil => rfl
  | cons c rest ih =>
    simp only [List.all_cons, Bool.and_eq_true] at h
    obtain ⟨⟨hvis, hq⟩, hrest⟩ := h
    have hcq : c ≠ '"' := by simpa using hq
    simp only [debug_escape_chars, if_neg hcq, if_pos hvis, ih hrest]
    rfl

/-! ## The claims -/

/-- C1, counterexample: on `"a=b=c"` the parser returns value `"b"` (the
piece between the first and the second `=`), not `"b=c"` (everything after
the first `=`) as the claim states. -/
theorem C1_counterexample :
    parse_kv_pair "a=b=c" = Except.ok ⟨"a", "b"⟩ ∧
    parse_kv_pair "a=b=c" ≠ Except.ok ⟨"a", "b=c"⟩ := by
  exact ⟨by decide, by decide⟩

/-- C1 (amended): for every string containing at least one `=`,
`parse_kv_pair` succeeds with key the substring before the first `=` and
value the substring strictly between the first `=` and the next `=` (or the
end of the string); for every string with no `=` it fails with
`InvalidKeyValue`. -/
theorem C1_parse_kv_pair_amended (s : String) :
    ('=' ∈ s.data →
      parse_kv_pair s =
        Except.ok
          ⟨String.mk (s.data.takeWhile (fun c => c != '=')),
           String.mk (((s.data.dropWhile (fun c => c != '=')).tail).takeWhile
             (fun c => c != '='))⟩) ∧
    ('=' ∉ s.data → parse_kv_pair s = Except.error ParseError.invalidKeyValue) :=
  ⟨parse_kv_pair_eq_of_mem s, parse_kv_pair_eq_of_not_mem s⟩

/-- C1 witness: the amended claim evaluated on `"a=b=c"` and `"abc"`. -/
theorem C1_parse_kv_pair_amended_witness :
    parse_kv_pair "a=b=c" = Except.ok ⟨"a", "b"⟩ ∧
    parse_kv_pair "abc" = Except.error ParseError.invalidKeyValue := by
  constructor
  · have h := (C1_parse_kv_pair_amended "a=b=c").1 (by decide)
    rw [h]
    decide
  · exact (C1_parse_kv_pair_amended "abc").2 (by decide)

/-- C2: when the content type is exactly `application/json` but pretty
printing fails, `print_body` prints the raw body unmodified; the function
is total, so no error reaches the caller. -/
theorem C2_print_body_fallback (prettyPrint : String → Except String String)
    (cyan : String → String) (body msg : String)
    (h : prettyPrint body = Except.error msg) :
    print_body prettyPrint cyan (some APPLICATION_JSON) body = [body] := by
  simp [print_body, h]

/-- C2 witness: a pretty printer failing on the body `{broken` degrades to
the literal body text. -/
theorem C2_print_body_fallback_witness :
    print_body (fun _ => Except.error "parse failure") id
      (some APPLICATION_JSON) "\x7bbroken" = ["\x7bbroken"] :=
  C2_print_body_fallback (fun _ => Except.error "parse failure") id
    "\x7bbroken" "parse failure" rfl

/-- C3: the POST body map is key-unique, the last occurrence of a duplicated
key wins, the two example sequences produce exactly the claimed objects, and
`post` sends exactly one request carrying that map as its JSON body. -/
theorem C3_post_body (pairs : List KvPair) (k : String) :
    build_body [⟨"a", "1"⟩, ⟨"a", "2"⟩] = [("a", "2")] ∧
    build_body [⟨"a", "1"⟩, ⟨"b", "2"⟩] = [("a", "1"), ("b", "2")] ∧
    ((build_body pairs).map Prod.fst).Nodup ∧
    assoc_get (build_body pairs) k = find_last k pairs ∧
    ∀ transport prettyPrint blue green cyan url,
      (Httpie.post transport prettyPrint blue green cyan url pairs).1 =
        [NetRequest.post url (build_body pairs)] := by
  refine ⟨by decide, by decide, ?_, ?_, ?_⟩
  · exact build_body_nodup_loop pairs [] (by simp)
  · rw [build_body, build_body_loop k pairs []]
    cases hfl : find_last k pairs <;> simp [assoc_get]
  · intro transport prettyPrint blue green cyan url
    simp only [Httpie.post]
    cases htr : transport (NetRequest.post url (build_body pairs)) with
    | error msg => simp [htr]
    | ok resp =>
      cases hpr : print_response prettyPrint blue green cyan resp <;>
        simp [htr, hpr]

/-- C4: `parse_url` is the identity on strings the URL grammar accepts and
fails with `InvalidUrl` on strings it rejects. -/
theorem C4_parse_url (urlValid : String → Bool) (s : String) :
    (urlValid s = true → parse_url urlValid s = Except.ok s) ∧
    (urlValid s = false → parse_url urlValid s = Except.error ParseError.invalidUrl) := by
  constructor <;> intro h <;> simp [parse_url, h]

/-- C4 witness: both branches evaluated at concrete strings under a concrete
validity predicate. -/
theorem C4_parse_url_witness :
    parse_url (fun s => s == "https://example.com") "https://example.com" =
      Except.ok "https://example.com" ∧
    parse_url (fun s => s == "https://example.com") "not-a-url" =
      Except.error ParseError.invalidUrl :=
  ⟨(C4_parse_url (fun s => s == "https://example.com") "https://example.com").1 (by decide),
   (C4_parse_url (fun s => s == "https://example.com") "not-a-url").2 (by decide)⟩

/-- C5, counterexample: `application/json; charset=utf-8` parses to a mime
with a parameter, and for such a content type `print_body` prints the raw
body even under a pretty printer that always succeeds — parameters are NOT
ignored, contrary to the claim (which predicts the output `["PRETTY"]`). -/
theorem C5_counterexample :
    mime_from_str "application/json; charset=utf-8" =
      some ⟨"application", "json", [("charset", "utf-8")]⟩ ∧
    print_body (fun _ => Except.ok "PRETTY") id
      (mime_from_str "application/json; charset=utf-8") "x" = ["x"] ∧
    (["x"] : List String) ≠ [id "PRETTY"] := by
  exact ⟨by decide, by decide, by decide⟩

/-- C5 (amended): pretty printing is attempted exactly when the content type
is present and equal to `application/json` WITH NO parameters (`Mime`
equality is parameter-sensitive); any other or absent content type prints
the raw body unmodified. -/
theorem C5_print_body_amended (prettyPrint : String → Except String String)
    (cyan : String → String) (m : Option Mime) (body : String) :
    (m = some APPLICATION_JSON →
      print_body prettyPrint cyan m body =
        match prettyPrint body with
        | .ok j => [cyan j]
        | .error _ => [body]) ∧
    (m ≠ some APPLICATION_JSON → print_body prettyPrint cyan m body = [body]) := by
  constructor
  · intro h
    subst h
    cases hp : prettyPrint body <;> simp [print_body, hp]
  · intro h
    match m with
    | none => simp [print_body]
    | some v =>
      have hv : v ≠ APPLICATION_JSON := fun he => h (by rw [he])
      simp [print_body, hv]

/-- C5 witness: the amended claim evaluated with a concrete pretty printer
on a json and an absent content type. -/
theorem C5_print_body_amended_witness :
    print_body (fun _ => Except.ok "P") id (some APPLICATION_JSON) "b" = ["P"] ∧
    print_body (fun _ => Except.ok "P") id none "b" = ["b"] := by
  constructor
  · have h := (C5_print_body_amended (fun _ => Except.ok "P") id
      (some APPLICATION_JSON) "b").1 rfl
    rw [h]
    rfl
  · exact (C5_print_body_amended (fun _ => Except.ok "P") id none "b").2
      (by decide)

/-- C6, counterexample: the header value is printed in its `Debug` form,
surrounded by double quotes, not as the raw text the claim states. -/
theorem C6_counterexample :
    print_response_headers id ⟨"HTTP/1.1", 200, [("host", "example.com")], ""⟩ =
      ["host: \"example.com\""] ∧
    print_response_headers id ⟨"HTTP/1.1", 200, [("host", "example.com")], ""⟩ ≠
      ["host: example.com"] := by
  exact ⟨by decide, by decide⟩

/-- C6 (amended): one line per header, in the order of the header list, each
of the form name, colon, space, then the value in its quoted `Debug`
rendering — which for a visible-ASCII value without double quotes is the
value text surrounded by double quotes. -/
theorem C6_print_response_headers_amended (green : String → String)
    (resp : Response) (i : Nat) :
    (print_response_headers green resp).length = resp.headers.length ∧
    (print_response_headers green resp)[i]? =
      (resp.headers[i]?).map (fun p => green p.1 ++ ": " ++ header_value_debug p.2) ∧
    ∀ v : String, (v.data.all fun c => is_visible_ascii c && c != '"') = true →
      header_value_debug v = "\"" ++ v ++ "\"" := by
  refine ⟨by simp [print_response_headers], by simp [print_response_headers], ?_⟩
  intro v hv
  show String.mk ('"' :: debug_escape_chars v.data ++ ['"']) = "\"" ++ v ++ "\""
  rw [debug_escape_chars_id v.data hv]
  rfl

/-- C6 witness: the amended claim evaluated on a one-header response. -/
theorem C6_print_response_headers_amended_witness :
    header_value_debug "example.com" = "\"" ++ "example.com" ++ "\"" ∧
    (print_response_headers id ⟨"HTTP/1.1", 200, [("host", "example.com")], ""⟩).length = 1 := by
  constructor
  · exact (C6_print_response_headers_amended id
      ⟨"HTTP/1.1", 200, [("host", "example.com")], ""⟩ 0).2.2 "example.com" (by decide)
  · have h := (C6_print_response_headers_amended id
      ⟨"HTTP/1.1", 200, [("host", "example.com")], ""⟩ 0).1
    rw [h]
    rfl

/-- C7: when the URL argument fails URL parsing, the program stops with
`InvalidUrl` at argument-parsing time, issues no network request at all, and
exits with a non-zero code. -/
theorem C7_invalid_url_no_request (urlValid : String → Bool)
    (transport : NetRequest → Except String Response)
    (prettyPrint : String → Except String String)
    (blue green cyan : String → String) (url : String)
    (h : urlValid url = false) :
    main_run urlValid transport prettyPrint blue green cyan (Cli.get url) =
      ([], RunOutcome.parseError ParseError.invalidUrl) ∧
    exit_code (main_run urlValid transport prettyPrint blue green cyan (Cli.get url)).2 ≠ 0 := by
  have hmain : main_run urlValid transport prettyPrint blue green cyan (Cli.get url) =
      ([], RunOutcome.parseError ParseError.invalidUrl) := by
    simp [main_run, parse_url, h]
  exact ⟨hmain, by rw [hmain]; decide⟩

/-- C7 witness: `prog get not-a-url` under a URL grammar rejecting it. -/
theorem C7_invalid_url_no_request_witness :
    main_run (fun _ => false) (fun _ => Except.error "no network")
        (fun s => Except.ok s) id id id (Cli.get "not-a-url") =
      ([], RunOutcome.parseError ParseError.invalidUrl) ∧
    exit_code (main_run (fun _ => false) (fun _ => Except.error "no network")
        (fun s => Except.ok s) id id id (Cli.get "not-a-url")).2 ≠ 0 :=
  C7_invalid_url_no_request (fun _ => false) (fun _ => Except.error "no network")
    (fun s => Except.ok s) id id id "not-a-url" rfl

/-- C8, counterexample: a 404 response whose content-type header does not
parse as a MIME type makes the renderer panic, so the process aborts with a
non-zero exit code — refuting "for every HTTP response ... the process exits
with code zero". -/
theorem C8_counterexample :
    main_run (fun _ => true)
        (fun _ => Except.ok ⟨"HTTP/1.1", 404, [("content-type", "oops")], "nf"⟩)
        (fun s => Except.ok s) id id id (Cli.get "http://e.com") =
      ([NetRequest.get "http://e.com"], RunOutcome.panicked Panic.unwrapFailure) ∧
    exit_code (RunOutcome.panicked Panic.unwrapFailure) ≠ 0 := by
  exact ⟨by decide, by decide⟩

/-- C8 (amended): `get` and `post` raise no error for any HTTP status —
including every 4xx/5xx — the response is passed to the renderer, and the
process exits with code zero whenever rendering completes (that is, whenever
the content-type header, if present, is visible ASCII parsing as a MIME
type; otherwise the renderer panics). -/
theorem C8_http_status_is_success (transport : NetRequest → Except String Response)
    (prettyPrint : String → Except String String)
    (blue green cyan : String → String) (url : String) (resp : Response)
    (out : List String) :
    (transport (NetRequest.get url) = Except.ok resp →
      print_response prettyPrint blue green cyan resp = Except.ok out →
      Httpie.get transport prettyPrint blue green cyan url =
        ([NetRequest.get url], RunOutcome.ok out) ∧
      exit_code (RunOutcome.ok out) = 0) ∧
    ∀ pairs : List KvPair,
      transport (NetRequest.post url (build_body pairs)) = Except.ok resp →
      print_response prettyPrint blue green cyan resp = Except.ok out →
      Httpie.post transport prettyPrint blue green cyan url pairs =
        ([NetRequest.post url (build_body pairs)], RunOutcome.ok out) ∧
      exit_code (RunOutcome.ok out) = 0 := by
  constructor
  · intro ht hr
    refine ⟨?_, rfl⟩
    unfold Httpie.get
    simp only [ht, hr]
  · intro pairs ht hr
    refine ⟨?_, rfl⟩
    unfold Httpie.post
    simp only [ht, hr]

/-- C8 witness: a 404 response with a well-formed `text/plain` content type
renders successfully and exits zero, for both `get` and `post`. -/
theorem C8_http_status_is_success_witness :
    Httpie.get (fun _ => Except.ok ⟨"HTTP/1.1", 404, [("content-type", "text/plain")], "nf"⟩)
        (fun s => Except.ok s) id id id "http://e.com" =
      ([NetRequest.get "http://e.com"],
        RunOutcome.ok ["HTTP/1.1 404 Not Found", "content-type: \"text/plain\"", "nf"]) ∧
    Httpie.post (fun _ => Except.ok ⟨"HTTP/1.1", 404, [("content-type", "text/plain")], "nf"⟩)
        (fun s => Except.ok s) id id id "http://e.com" [] =
      ([NetRequest.post "http://e.com" []],
        RunOutcome.ok ["HTTP/1.1 404 Not Found", "content-type: \"text/plain\"", "nf"]) := by
  constructor
  · exact ((C8_http_status_is_success
      (fun _ => Except.ok ⟨"HTTP/1.1", 404, [("content-type", "text/plain")], "nf"⟩)
      (fun s => Except.ok s) id id id "http://e.com"
      ⟨"HTTP/1.1", 404, [("content-type", "text/plain")], "nf"⟩
      ["HTTP/1.1 404 Not Found", "content-type: \"text/plain\"", "nf"]).1
      rfl (by decide)).1
  · exact ((C8_http_status_is_success
      (fun _ => Except.ok ⟨"HTTP/1.1", 404, [("content-type", "text/plain")], "nf"⟩)
      (fun s => Except.ok s) id id id "http://e.com"
      ⟨"HTTP/1.1", 404, [("content-type", "text/plain")], "nf"⟩
      ["HTTP/1.1 404 Not Found", "content-type: \"text/plain\"", "nf"]).2 []
      rfl (by decide)).1

/-- C9, counterexample: tokens with an empty part are ACCEPTED — `"key="`
parses to key `"key"` with empty value and `"=value"` to an empty key with
value `"value"` — refuting the claim that such tokens are rejected. -/
theorem C9_counterexample :
    parse_kv_pair "key=" = Except.ok ⟨"key", ""⟩ ∧
    parse_kv_pair "=value" = Except.ok ⟨"", "value"⟩ ∧
    parse_kv_pair "key=" ≠ Except.error ParseError.invalidKeyValue := by
  exact ⟨by decide, by decide, by decide⟩

/-- C9 (amended): `parse_kv_pair` fails exactly when the token contains no
`=` at all; both split parts exist whenever an `=` is present, and empty
parts are accepted rather than rejected. -/
theorem C9_parse_kv_pair_failure_iff (s : String) :
    parse_kv_pair s = Except.error ParseError.invalidKeyValue ↔ '=' ∉ s.data := by
  constructor
  · intro h hmem
    rw [parse_kv_pair_eq_of_mem s hmem] at h
    cases h
  · exact parse_kv_pair_eq_of_not_mem s

/-- C10: a present content-type header that is not visible ASCII or does not
parse as a MIME type makes `get_content_type` panic via `unwrap` instead of
returning `None` or an error, and the renderer therefore aborts instead of
falling back to raw output. -/
theorem C10_get_content_type_panics (resp : Response) (v : String)
    (hv : headers_get resp.headers "content-type" = some v)
    (hbad : header_value_to_str v = none ∨ mime_from_str v = none) :
    get_content_type resp = Except.error Panic.unwrapFailure ∧
    ∀ (prettyPrint : String → Except String String) (blue green cyan : String → String),
      print_response prettyPrint blue green cyan resp =
        Except.error Panic.unwrapFailure := by
  have hct : get_content_type resp = Except.error Panic.unwrapFailure := by
    unfold get_content_type
    simp only [hv]
    cases hbad with
    | inl h => simp only [h]
    | inr h =>
      cases hts : header_value_to_str v with
      | none => rfl
      | some sv =>
        have hsv : sv = v := by
          unfold header_value_to_str at hts
          by_cases hall : (v.data.all is_visible_ascii) = true
          · rw [if_pos hall] at hts
            exact (Option.some.inj hts).symm
          · rw [if_neg hall] at hts
            cases hts
        subst hsv
        simp only [hts, h]
  refine ⟨hct, ?_⟩
  intro prettyPrint blue green cyan
  simp [print_response, hct]

/-- C10 witness: the content-type value `oops` has no slash, fails MIME
parsing, and makes `get_content_type` panic. -/
theorem C10_get_content_type_panics_witness :
    get_content_type ⟨"HTTP/1.1", 200, [("content-type", "oops")], "x"⟩ =
      Except.error Panic.unwrapFailure :=
  (C10_get_content_type_panics ⟨"HTTP/1.1", 200, [("content-type", "oops")], "x"⟩
    "oops" (by decide) (Or.inr (by decide))).1

/-- C9 witness: the amended criterion applied to a concrete token with no
`=`. -/
theorem C9_parse_kv_pair_failure_iff_witness :
    parse_kv_pair "justakey" = Except.error ParseError.invalidKeyValue :=
  (C9_parse_kv_pair_failure_iff "justakey").mpr (by decide)
